import Mathlib

/-!
Verification development for the benthos stream-processing core.

The repository sample under scrutiny ships the test suites of the
`process_field` processor (lib/processor/process_field_test.go) and of the
HTTP server input (lib/input/http_server_test.go) together with the service
entry point (lib/service/service.go).  The `process_field` and `http_server`
implementations themselves are not part of the sample, so they are modelled
here from the specification (spec.md sections 4.1, 4.2, 8 and 9); the
shutdown logic of `service.go` is embedded directly from its source.

Messages are lists of byte payloads; payloads are represented as `String`.
JSON documents are modelled by the inductive `Json`; a fuel-based parser and
a serializer connect payloads with documents, mirroring the encoding/json
round trip the Go code performs on each part.
-/

namespace Benthos

/-- A JSON document.  Numbers are decimal: `num m e` denotes `m / 10^e`,
which is enough to represent every literal appearing in the repository's
tests (`5`, `5.67`, …) exactly, avoiding floating point. -/
inductive Json where
  | null : Json
  | bool : Bool → Json
  | num : Int → Nat → Json
  | str : String → Json
  | arr : List Json → Json
  | obj : List (String × Json) → Json

/-- The opening brace character, written via its code point. -/
def lbraceC : Char := Char.ofNat 123

/-- The closing brace character, written via its code point. -/
def rbraceC : Char := Char.ofNat 125

/-- Decimal digit value of a character, if it is a digit. -/
def digitVal (c : Char) : Option Nat :=
  if c.toNat ≥ 48 ∧ c.toNat ≤ 57 then some (c.toNat - 48) else none

/-- Take a maximal run of decimal digits from the front of a character list. -/
def takeDigits : List Char → (List Nat × List Char)
  | [] => ([], [])
  | c :: cs =>
    match digitVal c with
    | some d => let r := takeDigits cs; (d :: r.1, r.2)
    | none => ([], c :: cs)

/-- Fold a digit list into a natural number, most significant digit first. -/
def digitsToNat (ds : List Nat) : Nat :=
  ds.foldl (fun a d => a * 10 + d) 0

/-- Negate an integer when the flag is set. -/
def condNeg (b : Bool) (i : Int) : Int := if b then -i else i

/-- Skip JSON insignificant whitespace. -/
def skipWs : List Char → List Char
  | c :: cs => if c = ' ' ∨ c = '\n' ∨ c = '\t' ∨ c = '\r' then skipWs cs else c :: cs
  | [] => []

/-- Resolve a JSON string escape character: the self-representing escapes
(quote, backslash, slash) and the newline, tab and return escapes. -/
def unescapeChar (e : Char) : Option Char :=
  if e = 'n' then some '\n'
  else if e = 't' then some '\t'
  else if e = 'r' then some '\r'
  else if e = '"' ∨ e = '\\' ∨ e = '/' then some e
  else none

/-- Parse the body of a JSON string literal (the opening quote already
consumed), returning the decoded characters and the rest of the input. -/
def parseStringBody : Nat → List Char → Option (List Char × List Char)
  | 0, _ => none
  | _ + 1, [] => none
  | fuel + 1, c :: cs =>
    if c = '"' then some ([], cs)
    else if c = '\\' then
      match cs with
      | [] => none
      | e :: cs1 =>
        match unescapeChar e with
        | none => none
        | some u => (parseStringBody fuel cs1).map (fun r => (u :: r.1, r.2))
    else (parseStringBody fuel cs).map (fun r => (c :: r.1, r.2))

/-- Match a literal character prefix, returning the remaining input. -/
def stripPrefixL : List Char → List Char → Option (List Char)
  | [], cs => some cs
  | p :: ps, c :: cs => if c = p then stripPrefixL ps cs else none
  | _ :: _, [] => none

/-- Parse a JSON number token (optional minus, digits, optional fraction). -/
def parseNumberTok (cs : List Char) : Option (Json × List Char) :=
  let p := match cs with
    | '-' :: t => (true, t)
    | t => (false, t)
  match takeDigits p.2 with
  | ([], _) => none
  | (ds, rest) =>
    match rest with
    | '.' :: rest2 =>
      match takeDigits rest2 with
      | ([], _) => none
      | (fs, rest3) =>
        some (.num (condNeg p.1 (Int.ofNat (digitsToNat (ds ++ fs)))) fs.length, rest3)
    | _ => some (.num (condNeg p.1 (Int.ofNat (digitsToNat ds))) 0, rest)

/-- Fuel-based JSON parser.  The mode selects what is being parsed:
`0` a value, `1` the members of an object after its opening brace,
`2` the elements of an array after its opening bracket. -/
def parseAux : Nat → Nat → List Char → Option (Json × List Char)
  | 0, _, _ => none
  | fuel + 1, 0, cs =>
    match skipWs cs with
    | [] => none
    | c :: cs1 =>
      if c = '"' then
        (parseStringBody (cs1.length + 1) cs1).map (fun r => (.str (String.mk r.1), r.2))
      else if c = lbraceC then
        match skipWs cs1 with
        | [] => none
        | c2 :: cs2 =>
          if c2 = rbraceC then some (.obj [], cs2)
          else parseAux fuel 1 (c2 :: cs2)
      else if c = '[' then
        match skipWs cs1 with
        | [] => none
        | c2 :: cs2 =>
          if c2 = ']' then some (.arr [], cs2)
          else parseAux fuel 2 (c2 :: cs2)
      else if c = 't' then
        (stripPrefixL ['r', 'u', 'e'] cs1).map (fun r => (.bool true, r))
      else if c = 'f' then
        (stripPrefixL ['a', 'l', 's', 'e'] cs1).map (fun r => (.bool false, r))
      else if c = 'n' then
        (stripPrefixL ['u', 'l', 'l'] cs1).map (fun r => (.null, r))
      else parseNumberTok (c :: cs1)
  | fuel + 1, 1, cs =>
    match skipWs cs with
    | [] => none
    | c :: cs1 =>
      if c = '"' then
        match parseStringBody (cs1.length + 1) cs1 with
        | none => none
        | some (key, cs2) =>
          match skipWs cs2 with
          | ':' :: cs3 =>
            match parseAux fuel 0 cs3 with
            | none => none
            | some (v, cs4) =>
              match skipWs cs4 with
              | [] => none
              | ',' :: cs5 =>
                match parseAux fuel 1 cs5 with
                | some (.obj fs, cs6) => some (.obj ((String.mk key, v) :: fs), cs6)
                | _ => none
              | c5 :: cs5 =>
                if c5 = rbraceC then some (.obj [(String.mk key, v)], cs5) else none
          | _ => none
      else none
  | fuel + 1, 2, cs =>
    match parseAux fuel 0 cs with
    | none => none
    | some (v, cs1) =>
      match skipWs cs1 with
      | [] => none
      | ',' :: cs2 =>
        match parseAux fuel 2 cs2 with
        | some (.arr xs, cs3) => some (.arr (v :: xs), cs3)
        | _ => none
      | c2 :: cs2 => if c2 = ']' then some (.arr [v], cs2) else none
  | _ + 1, _ + 3, _ => none

/-- Parse a complete JSON document from a character list. -/
def parseJsonL (cs : List Char) : Option Json :=
  match parseAux (2 * cs.length + 2) 0 cs with
  | some (j, rest) => if skipWs rest = [] then some j else none
  | none => none

/-- Parse a complete JSON document from a payload string. -/
def parseJson (s : String) : Option Json :=
  parseJsonL s.data

/-- Escape one character for inclusion in a JSON string literal. -/
def escChar (c : Char) : List Char :=
  if c = '"' then ['\\', '"']
  else if c = '\\' then ['\\', '\\']
  else if c = '\n' then ['\\', 'n']
  else if c = '\t' then ['\\', 't']
  else if c = '\r' then ['\\', 'r']
  else [c]

/-- Escape a character list for inclusion in a JSON string literal. -/
def escapeChars (cs : List Char) : List Char :=
  (cs.map escChar).flatten

mutual

/-- Structural size of a JSON document, used as serializer fuel. -/
def jsonSize : Json → Nat
  | .null => 1
  | .bool _ => 1
  | .num _ _ => 1
  | .str _ => 1
  | .arr xs => 1 + jsonSizeL xs
  | .obj fs => 1 + jsonSizeF fs

/-- Structural size of a list of JSON documents. -/
def jsonSizeL : List Json → Nat
  | [] => 0
  | x :: xs => jsonSize x + jsonSizeL xs

/-- Structural size of a list of JSON object members. -/
def jsonSizeF : List (String × Json) → Nat
  | [] => 0
  | kv :: fs => jsonSize kv.2 + jsonSizeF fs

end

/-- A serialized JSON string literal. -/
def quoteStr (s : String) : String :=
  "\"" ++ String.mk (escapeChars s.data) ++ "\""

/-- Serialize a decimal number `m / 10^e` the way encoding/json prints it. -/
def serializeNum (m : Int) (e : Nat) : String :=
  if e = 0 then toString m
  else
    let sign := if m < 0 then "-" else ""
    let ds0 := (toString m.natAbs).data
    let ds := List.replicate (e + 1 - ds0.length) '0' ++ ds0
    let k := ds.length - e
    sign ++ String.mk (ds.take k) ++ "." ++ String.mk (ds.drop k)

/-- Join serialized items with commas. -/
def joinComma : List String → String
  | [] => ""
  | [s] => s
  | s :: t :: ts => s ++ "," ++ joinComma (t :: ts)

/-- Fuel-based JSON serializer producing the compact encoding/json form. -/
def serializeJsonF : Nat → Json → String
  | 0, _ => ""
  | _ + 1, .null => "null"
  | _ + 1, .bool b => if b then "true" else "false"
  | _ + 1, .num m e => serializeNum m e
  | _ + 1, .str s => quoteStr s
  | fuel + 1, .arr xs =>
    "[" ++ joinComma (xs.map (serializeJsonF fuel)) ++ "]"
  | fuel + 1, .obj fs =>
    String.mk [lbraceC] ++
      joinComma (fs.map (fun kv => quoteStr kv.1 ++ ":" ++ serializeJsonF fuel kv.2)) ++
      String.mk [rbraceC]

/-- Serialize a JSON document (its size bounds the recursion depth). -/
def serializeJson (j : Json) : String :=
  serializeJsonF (jsonSize j) j

/-- Look up a key among the members of a JSON object. -/
def lookupField (k : String) : List (String × Json) → Option Json
  | [] => none
  | kv :: fs => if kv.1 = k then some kv.2 else lookupField k fs

/-- Read the sub-document at a dot-path; `none` when a field is absent or an
intermediate value is not an object (spec 4.2: "field absent"). -/
def getPath : List String → Json → Option Json
  | [], j => some j
  | k :: ks, .obj fs =>
    match lookupField k fs with
    | some v => getPath ks v
    | none => none
  | _ :: _, _ => none

/-- Replace or insert the member `k` of an object member list, sending the
existing value (or `null` when absent, materialising the field) through the
continuation `setP`. -/
def setFields (setP : Json → Json) (k : String) : List (String × Json) → List (String × Json)
  | [] => [(k, setP .null)]
  | kv :: fs => if kv.1 = k then (kv.1, setP kv.2) :: fs else kv :: setFields setP k fs

/-- Write a value at a dot-path, materialising missing intermediate objects
(spec 9: "missing intermediate objects on write must be materialised"). -/
def setPath : List String → Json → Json → Json
  | [], v, _ => v
  | k :: ks, v, j =>
    Json.obj (setFields (setPath ks v) k
      (match j with
       | .obj fs => fs
       | _ => []))

/-- Split a character list at every dot. -/
def splitPathL : List Char → List (List Char)
  | [] => [[]]
  | c :: cs =>
    let r := splitPathL cs
    if c = '.' then [] :: r
    else
      match r with
      | [] => [[c]]
      | seg :: segs => (c :: seg) :: segs

/-- Split a dot-separated path into its segments. -/
def splitPath (s : String) : List String :=
  (splitPathL s.data).map String.mk

/-!
## Message and processor model

Spec 3: a message is an ordered sequence of parts, each an opaque byte
payload.  Metadata plays no role in the claims under study, so a part is its
payload string.  Spec 4.2: a processor maps a message to a list of messages
plus an optional short-circuiting response; the process-field inner chain is
therefore modelled as a function `Message → List Message`.
-/

/-- A message: the list of its parts' byte payloads. -/
abbrev Message := List String

/-- A transaction response (spec 3: `Ack`, `NoAck`, `Error`). -/
inductive Response where
  | ack : Response
  | noAck : Response
  | error : String → Response
deriving DecidableEq

/-- The result-type disciplines of the process-field processor (spec 4.2). -/
inductive ResultType where
  | string : ResultType
  | int : ResultType
  | float : ResultType
  | bool : ResultType
  | object : ResultType
  | array : ResultType
  | discard : ResultType
deriving DecidableEq

/-- Modelled from the spec: strconv-style integer parsing used by the `int`
result type ("parse P; on parse failure, leave the part unchanged"). -/
def parseIntStr (s : String) : Option Int :=
  let p := match s.data with
    | '-' :: t => (true, t)
    | t => (false, t)
  match p.2.mapM digitVal with
  | some [] => none
  | some vs => some (condNeg p.1 (Int.ofNat (digitsToNat vs)))
  | none => none

/-- Split a digit string at a decimal point, if present. -/
def splitOnDot : List Char → (List Char × Option (List Char))
  | [] => ([], none)
  | c :: t =>
    if c = '.' then ([], some t)
    else
      let r := splitOnDot t
      (c :: r.1, r.2)

/-- Modelled from the spec: strconv-style decimal parsing used by the `float`
result type, returning mantissa and decimal exponent. -/
def parseDecStr (s : String) : Option (Int × Nat) :=
  let p := match s.data with
    | '-' :: t => (true, t)
    | t => (false, t)
  let q := splitOnDot p.2
  match q.1.mapM digitVal with
  | some [] => none
  | none => none
  | some ds =>
    match q.2 with
    | none => some (condNeg p.1 (Int.ofNat (digitsToNat ds)), 0)
    | some fracCs =>
      match fracCs.mapM digitVal with
      | some [] => none
      | none => none
      | some fs => some (condNeg p.1 (Int.ofNat (digitsToNat (ds ++ fs))), fs.length)

/-- Modelled from the spec: how each result type turns the inner chain's byte
payload `P` into a JSON value to write back at the path (spec 4.2 table);
`none` means the parse failed or the kind was wrong, so the original part is
left unchanged.  The `discard` discipline never produces a value. -/
def codecValue : ResultType → String → Option Json
  | .string, s => some (.str s)
  | .int, s => (parseIntStr s).map (fun n => .num n 0)
  | .float, s => (parseDecStr s).map (fun p => .num p.1 p.2)
  | .bool, s =>
    if s = "true" then some (.bool true)
    else if s = "false" then some (.bool false)
    else none
  | .object, s =>
    match parseJson s with
    | some (.obj fs) => some (.obj fs)
    | _ => none
  | .array, s =>
    match parseJson s with
    | some (.arr xs) => some (.arr xs)
    | _ => none
  | .discard, _ => none

/-- Extraction convention shared by process-field and the json processor: a
string value contributes its raw bytes, any other value its serialization. -/
def fieldToPayload : Json → String
  | .str s => s
  | j => serializeJson j

/-- Modelled from the spec (4.2): the payload extracted from one part for the
synthetic message: the sub-document at the path, raw for strings, serialized
otherwise; an unparseable part contributes its whole payload, an absent field
contributes `null`. -/
def extractPayload (path : String) (part : String) : String :=
  match parseJson part with
  | none => part
  | some j =>
    match getPath (splitPath path) j with
    | none => "null"
    | some v => fieldToPayload v

/-- Modelled from the spec (4.2): merge one inner-chain result payload back
into the original part at the path, per the result-type table; any failure
leaves the part unchanged, and `discard` always leaves it unchanged. -/
def mergePart (path : String) (rt : ResultType) (orig res : String) : String :=
  match rt with
  | .discard => orig
  | _ =>
    match parseJson orig with
    | none => orig
    | some j =>
      match codecValue rt res with
      | none => orig
      | some v => serializeJson (setPath (splitPath path) v j)

/-- Configuration of the process-field processor (the fields its tests set:
part selection, dot-path, result type; the inner chain is passed separately). -/
structure ProcessFieldConfig where
  parts : List Int
  path : String
  resultType : ResultType

/-- Normalize a configured part index against the current part count
(spec 4.2: negative indices are counted from the end, at call time). -/
def normIdx (i : Int) (len : Nat) : Int :=
  if i < 0 then i + (len : Int) else i

/-- Modelled from the spec (4.2): resolve the configured part selection
against the current part count — an empty set selects all parts, negative
indices are normalized at call time, out-of-range indices are dropped. -/
def resolveParts (parts : List Int) (len : Nat) : List Nat :=
  if parts = [] then List.range len
  else
    parts.filterMap (fun i =>
      if 0 ≤ normIdx i len ∧ normIdx i len < (len : Int)
      then some (normIdx i len).toNat else none)

/-- The synthetic message process-field builds: one extracted payload per
selected part, in selection order. -/
def syntheticMessage (cfg : ProcessFieldConfig) (msg : Message) : Message :=
  (resolveParts cfg.parts msg.length).map
    (fun i => extractPayload cfg.path (msg.getD i ""))

/-- Modelled from the spec (4.2, 8): `ProcessMessage` of the process-field
processor.  It extracts the selected payloads into a synthetic message, runs
the inner chain on it, and — when the flattened results match the selection
count — merges each result back into its part; otherwise (the chain dropped
the message or changed the part count) the original message is returned
unchanged.  The processor never drops, so the response is always `Ack`. -/
def processField (cfg : ProcessFieldConfig) (chain : Message → List Message)
    (msg : Message) : List Message × Response :=
  if ((chain (syntheticMessage cfg msg)).flatten).length
      = (resolveParts cfg.parts msg.length).length then
    ([((resolveParts cfg.parts msg.length).zip
          ((chain (syntheticMessage cfg msg)).flatten)).foldl
        (fun acc p => acc.set p.1 (mergePart cfg.path cfg.resultType (acc.getD p.1 "") p.2))
        msg],
     .ack)
  else ([msg], .ack)

/-- Modelled from the spec: the `noop` processor passes its message through
unchanged. -/
def noopChain : Message → List Message := fun m => [m]

/-- Modelled from the spec (scenario 5): the `json` processor with operator
`select` replaces each part by the sub-document at the given path, raw for
string values, serialized otherwise; parts it cannot interpret are kept. -/
def jsonSelect (path : String) : Message → List Message :=
  fun msg =>
    [msg.map (fun part =>
      match parseJson part with
      | none => part
      | some j =>
        match getPath (splitPath path) j with
        | none => part
        | some v => fieldToPayload v)]

/-- Modelled from the spec: a `filter` processor with a static `false`
condition drops every message (returns no messages). -/
def filterStaticFalseChain : Message → List Message := fun _ => []

/-- Modelled from the spec: the `archive` processor folds all parts of a
message into a single archive part, here by concatenation. -/
def archiveChain : Message → List Message :=
  fun msg => [[String.join msg]]

/-!
## HTTP server input

The `http_server` input implementation is also absent from the sample (only
its test is present); it is modelled from spec 4.1: POST on the configured
path, single part for `application/octet-stream`, RFC 2046 multipart for
`multipart/*`, one transaction per request, 200 on `Ack` (optionally with a
synthesized sync-response body), 408 on reply timeout, 5xx on error, 405 for
non-POST.
-/

/-- Occurrences-based splitter: cut a character list at every occurrence of
a non-empty separator. -/
def splitOnL (sep : List Char) : Nat → List Char → List (List Char)
  | 0, cs => [cs]
  | _ + 1, [] => [[]]
  | fuel + 1, c :: cs =>
    match stripPrefixL sep (c :: cs) with
    | some rest =>
      match splitOnL sep fuel rest with
      | [] => [[], rest]
      | r :: rs => [] :: r :: rs
    | none =>
      match splitOnL sep fuel cs with
      | [] => [[c]]
      | r :: rs => (c :: r) :: rs

/-- Split a string at every occurrence of a non-empty separator. -/
def splitOnS (sep s : String) : List String :=
  (splitOnL sep.data (s.data.length + 1) s.data).map String.mk

/-- Does one character list start with another? -/
def startsWithL : List Char → List Char → Bool
  | cs, p => (stripPrefixL p cs).isSome

/-- The CRLF line terminator of RFC 2046. -/
def crlf : String := "\r\n"

/-- Strip a suffix from a character list, if present. -/
def dropSuffixL (suf cs : List Char) : Option (List Char) :=
  (stripPrefixL suf.reverse cs.reverse).map List.reverse

/-- Modelled from the spec: decode one RFC 2046 body part — leading CRLF,
header lines up to a blank line, then the content, terminated by the CRLF
that precedes the next boundary delimiter. -/
def parsePartSegment (s : String) : Option String :=
  match splitOnS (crlf ++ crlf) s with
  | [headers, rest] =>
    if startsWithL headers.data crlf.data then
      (dropSuffixL crlf.data rest.data).map String.mk
    else none
  | _ => none

/-- Modelled from the spec: RFC 2046 multipart body decoding for the
`multipart/*` content types — the body is a sequence of parts separated by
`--boundary` delimiters and closed by `--boundary--`. -/
def parseMultipart (boundary body : String) : Option (List String) :=
  match splitOnS ("--" ++ boundary) body with
  | "" :: rest =>
    match rest.reverse with
    | lastSeg :: midsRev =>
      if startsWithL lastSeg.data ['-', '-'] then
        (midsRev.reverse).mapM parsePartSegment
      else none
    | [] => none
  | _ => none

/-- Modelled from the spec (4.1): turn a request body into message parts —
a single part for non-multipart content types, RFC 2046 decoding for
`multipart/*` with the boundary taken from the content type. -/
def requestToMessage (contentType body : String) : Option Message :=
  if startsWithL contentType.data "multipart/".data then
    match splitOnS "boundary=" contentType with
    | [_, b] => parseMultipart b body
    | _ => none
  else some [body]

/-- What the transaction's consumer eventually does: answers `Ack` (having
optionally marked a message as the synchronous response), lets the adapter's
reply timeout fire, or answers with an error. -/
inductive ConsumerOutcome where
  | ackWith : Option Message → ConsumerOutcome
  | timedOut : ConsumerOutcome
  | failed : ConsumerOutcome

/-- Outcome of one HTTP exchange: status code, response body, and the
message emitted on the transaction stream (if any). -/
structure HttpResult where
  status : Nat
  responseBody : String
  emitted : Option Message
deriving DecidableEq

/-- Modelled from the spec (4.1): the HTTP server input's handling of one
request.  It accepts POST on the configured path, parses the body into a
message, emits it as one transaction, and translates the consumer's response:
`Ack` yields 200 (with the sync-response parts concatenated as body when one
was set), an unanswered transaction yields 408 once the reply timeout fires,
an error yields 5xx; non-POST yields 405. -/
def httpServerHandle (cfgPath : String) (method path contentType body : String)
    (consumer : Message → ConsumerOutcome) : HttpResult :=
  if method ≠ "POST" then ⟨405, "", none⟩
  else if path ≠ cfgPath then ⟨404, "", none⟩
  else
    match requestToMessage contentType body with
    | none => ⟨400, "", none⟩
    | some msg =>
      match consumer msg with
      | .ackWith none => ⟨200, "", some msg⟩
      | .ackWith (some rm) => ⟨200, String.join rm, some msg⟩
      | .timedOut => ⟨408, "", some msg⟩
      | .failed => ⟨500, "", some msg⟩

/-!
## Service shutdown (lib/service/service.go, `Run`, lines 499-542)

Embedded from the source.  `Run` parses `system_close_timeout` into
`exitTimeout` and registers a deferred cleanup that

* spawns a goroutine shutting the HTTP server down, warning after
  `exitTimeout / 2` if it has not closed (it never exits the process);
* spawns a watchdog goroutine that, after `exitTimeout + time.Second`,
  dumps all goroutine stack traces to stderr and calls `os.Exit(1)`;
* calls `dataStream.Stop(exitTimeout)` — the full timeout — exiting with
  code 1 immediately if it returns an error;
* calls `manager.WaitForClose(time.Until(timesOut))` with whatever remains
  of the same full timeout, dumping stacks and exiting with code 1 on a
  deadline error.

Durations are nanosecond counts (Go `time.Duration`); the behaviour of the
external components is abstracted by `ShutdownEnv`: how long the data-stream
stop actually takes, whether it errs, and how long the manager needs to
close.  All times are measured from the start of the deferred cleanup.
-/

/-- One `time.Second` in nanoseconds. -/
def nanosPerSecond : Nat := 1000000000

/-- Behaviour of the external components during cleanup: how long
`dataStream.Stop` runs and whether it returns an error, and how long the
manager takes to close once asked. -/
structure ShutdownEnv where
  dataStreamStopTakes : Nat
  dataStreamStopErr : Bool
  managerTakes : Nat

/-- Observable outcome of the cleanup: when the process exits, with which
code, whether stack traces were dumped, and the deadlines the code handed
out — the argument of `dataStream.Stop` and the grace period after which the
HTTP-server goroutine warns. -/
structure CleanupOutcome where
  exitAt : Nat
  exitCode : Nat
  dumpedStacks : Bool
  drainDeadline : Nat
  httpGrace : Nat
deriving DecidableEq

/-- The main deferred-cleanup path of `Run` (ignoring the watchdog): stop
the data streams, then wait for the manager within what remains of
`exitTimeout`; an error on either step exits with code 1, a manager
deadline error also dumps stack traces. -/
def cleanupMain (exitTimeout : Nat) (env : ShutdownEnv) : CleanupOutcome :=
  if env.dataStreamStopErr then
    ⟨env.dataStreamStopTakes, 1, false, exitTimeout, exitTimeout / 2⟩
  else if env.managerTakes ≤ exitTimeout - env.dataStreamStopTakes then
    ⟨env.dataStreamStopTakes + env.managerTakes, 0, false, exitTimeout, exitTimeout / 2⟩
  else
    ⟨env.dataStreamStopTakes + (exitTimeout - env.dataStreamStopTakes), 1, true,
      exitTimeout, exitTimeout / 2⟩

/-- The deferred cleanup of `Run` including the watchdog goroutine: the
process exits at the earlier of the main path's completion and the watchdog
deadline `exitTimeout + time.Second`, the watchdog exiting with code 1 after
dumping stack traces. -/
def runCleanup (exitTimeout : Nat) (env : ShutdownEnv) : CleanupOutcome :=
  if (cleanupMain exitTimeout env).exitAt ≤ exitTimeout + nanosPerSecond then
    cleanupMain exitTimeout env
  else ⟨exitTimeout + nanosPerSecond, 1, true, exitTimeout, exitTimeout / 2⟩

/-!
## Concrete documents of the test scenarios

The JSON texts of the test suites are produced by the serializer so that
they appear here exactly as the byte strings the tests use; for instance
`targetDoc "5"` is the payload `{"target":"5"}`.
-/

/-- The document with a single string field `target`. -/
def targetDoc (s : String) : String :=
  serializeJson (.obj [("target", .str s)])

/-- The document with a single field `target` holding an arbitrary value. -/
def targetValDoc (v : Json) : String :=
  serializeJson (.obj [("target", v)])

/-- The document `foo.bar.baz = s`, e.g.
`{"foo":{"bar":{"baz":"original"}}}`. -/
def fooBarBazDoc (s : String) : String :=
  serializeJson (.obj [("foo", .obj [("bar", .obj [("baz", .str s)])])])

/-- The document `foo.bar = s`, e.g. `{"foo":{"bar":"encode me"}}`. -/
def fooBarDoc (s : String) : String :=
  serializeJson (.obj [("foo", .obj [("bar", .str s)])])

/-- The nested-object payload `{"foo":{"bar":"baz"}}` of the `object` codec
test case. -/
def fooBarBazObjPayload : String :=
  serializeJson (.obj [("foo", .obj [("bar", .str "baz")])])

/-- The array payload `[1,2,"foo"]` of the `array` codec test case. -/
def oneTwoFooArrPayload : String :=
  serializeJson (.arr [.num 1 0, .num 2 0, .str "foo"])

/-- The RFC 2046 body of the multipart test: two parts with octet-stream
content types and boundary `foo`. -/
def multipartTestBody (partOne partTwo : String) : String :=
  "--foo" ++ crlf ++ "Content-Type: application/octet-stream" ++ crlf ++ crlf ++
    partOne ++ crlf ++
  "--foo" ++ crlf ++ "Content-Type: application/octet-stream" ++ crlf ++ crlf ++
    partTwo ++ crlf ++
  "--foo--" ++ crlf

/-!
## Claim theorems
-/

set_option maxRecDepth 16384

/-- C1: For the process-field processor with path `target` and inner chain
`noop`, the result-type codecs behave as specified: codec `int` on
`{"target":"5"}` yields `{"target":5}`; codec `float` on `{"target":"5.67"}`
yields `{"target":5.67}`; codec `bool` on `{"target":"true"}` yields
`{"target":true}`; codec `object` parses the inner payload as a JSON object
and codec `array` as a JSON array, and on parse failure or wrong kind the
part is left unchanged (shown on a non-JSON payload and on the wrong-kind
payloads). -/
theorem processField_resultType_codecs :
    (processField ⟨[], "target", .int⟩ noopChain [targetDoc "5"]
      = ([[targetValDoc (.num 5 0)]], .ack))
  ∧ (processField ⟨[], "target", .float⟩ noopChain [targetDoc "5.67"]
      = ([[targetValDoc (.num 567 2)]], .ack))
  ∧ (processField ⟨[], "target", .bool⟩ noopChain [targetDoc "true"]
      = ([[targetValDoc (.bool true)]], .ack))
  ∧ (processField ⟨[], "target", .object⟩ noopChain [targetDoc fooBarBazObjPayload]
      = ([[targetValDoc (.obj [("foo", .obj [("bar", .str "baz")])])]], .ack))
  ∧ (processField ⟨[], "target", .array⟩ noopChain [targetDoc oneTwoFooArrPayload]
      = ([[targetValDoc (.arr [.num 1 0, .num 2 0, .str "foo"])]], .ack))
  ∧ (processField ⟨[], "target", .object⟩ noopChain [targetDoc "nope"]
      = ([[targetDoc "nope"]], .ack))
  ∧ (processField ⟨[], "target", .object⟩ noopChain [targetDoc oneTwoFooArrPayload]
      = ([[targetDoc oneTwoFooArrPayload]], .ack))
  ∧ (processField ⟨[], "target", .array⟩ noopChain [targetDoc "!!"]
      = ([[targetDoc "!!"]], .ack))
  ∧ (processField ⟨[], "target", .array⟩ noopChain [targetDoc fooBarBazObjPayload]
      = ([[targetDoc fooBarBazObjPayload]], .ack)) := by
  decide

/-- C5: A process-field processor with path `foo.bar`, selected parts `[1]`
and inner chain the JSON select `baz` processor, applied to the 3-part
message of the test, leaves parts 0 and 2 unchanged and rewrites part 1 to
`{"foo":{"bar":V}}` where `V` is the value previously at part 1's
`foo.bar.baz`. -/
theorem processField_partsSelector :
    processField ⟨[1], "foo.bar", .string⟩ (jsonSelect "baz")
      [fooBarBazDoc "original", fooBarBazDoc "put me at the root",
        fooBarBazDoc "original"]
      = ([[fooBarBazDoc "original", fooBarDoc "put me at the root",
            fooBarBazDoc "original"]], .ack) := by
  decide

/-- C4: For an HTTP server input on path `/testpost`, a POST of body
`test0` with content type `application/octet-stream` emits exactly one
1-part message with payload `test0`; when the consumer sets that part to
`response0`, marks it as the sync response and answers `Ack`, the client
receives 200 with body `response0`. -/
theorem httpServer_singlePart_roundtrip :
    httpServerHandle "/testpost" "POST" "/testpost" "application/octet-stream"
        "test0"
        (fun m => if m = ["test0"] then .ackWith (some ["response0"]) else .failed)
      = ⟨200, "response0", some ["test0"]⟩ := by
  decide

/-- C8: A POST with content type `multipart/mixed; boundary=foo` whose body
encodes two parts per RFC 2046 yields a transaction carrying a 2-part
message with the two payloads in request order. -/
theorem httpServer_multipart_roundtrip :
    httpServerHandle "/testpost" "POST" "/testpost"
        "multipart/mixed; boundary=foo"
        (multipartTestBody "test0 part one" "test0 part two")
        (fun _ => .ackWith none)
      = ⟨200, "", some ["test0 part one", "test0 part two"]⟩ := by
  decide

/-- C9: When the transaction of a POSTed request is never answered, the
adapter's reply timeout fires and the HTTP client receives 408. -/
theorem httpServer_timeout_408 :
    httpServerHandle "/testpost" "POST" "/testpost" "application/octet-stream"
        "hello world" (fun _ => .timedOut)
      = ⟨408, "", some ["hello world"]⟩ := by
  decide

/-- Writing back the element a list already holds at an index leaves the
list unchanged. -/
theorem set_getD_self {α : Type} (l : List α) : ∀ (i : Nat) (d : α),
    l.set i (l.getD i d) = l := by
  induction l with
  | nil => intro i d; rfl
  | cons a l ih =>
    intro i d
    cases i with
    | zero => rfl
    | succ n => simpa [List.set, List.getD] using ih n d

/-- The merge fold of the `discard` result type rewrites nothing. -/
theorem foldl_mergeDiscard_eq (path : String) :
    ∀ (ps : List (Nat × String)) (msg : List String),
    ps.foldl
        (fun acc p => acc.set p.1 (mergePart path .discard (acc.getD p.1 "") p.2))
        msg
      = msg := by
  intro ps
  induction ps with
  | nil => intro msg; rfl
  | cons p ps ih =>
    intro msg
    have hm : mergePart path .discard (msg.getD p.1 "") p.2 = msg.getD p.1 "" := rfl
    rw [List.foldl_cons, hm, set_getD_self]
    exact ih msg

/-- A fold that only `set`s elements preserves the list length. -/
theorem foldl_set_length_eq {α : Type} (f : List α → Nat × α → α) :
    ∀ (ps : List (Nat × α)) (msg : List α),
    (ps.foldl (fun acc p => acc.set p.1 (f acc p)) msg).length = msg.length := by
  intro ps
  induction ps with
  | nil => intro msg; rfl
  | cons p ps ih =>
    intro msg
    simp only [List.foldl_cons]
    rw [ih]
    exact List.length_set ..

/-- C7: A process-field processor with result type `discard` returns a
message equal to its input and `Ack`, for every part selection, path, inner
chain and input message — the inner chain's result is discarded. -/
theorem processField_discard_identity (parts : List Int) (path : String)
    (chain : Message → List Message) (msg : Message) :
    processField ⟨parts, path, .discard⟩ chain msg = ([msg], .ack) := by
  unfold processField
  simp only [foldl_mergeDiscard_eq]
  split <;> rfl

/-- C2: Whenever the inner chain of a process-field processor drops its
synthetic message or returns a different part count than the selection
(e.g. the archive processor or a static-false filter), `ProcessMessage`
returns the original message unchanged together with `Ack`. -/
theorem processField_badProc_unchanged (cfg : ProcessFieldConfig)
    (chain : Message → List Message) (msg : Message)
    (h : ((chain (syntheticMessage cfg msg)).flatten).length
        ≠ (resolveParts cfg.parts msg.length).length) :
    processField cfg chain msg = ([msg], .ack) := by
  unfold processField
  rw [if_neg h]

/-- Witness for C2: the static-false filter drops the synthetic message of
the 2-part test input, and the original message comes back unchanged. -/
theorem processField_badProc_unchanged_witness :
    processField ⟨[], "foo.bar", .string⟩ filterStaticFalseChain
        [fooBarDoc "encode me", fooBarDoc "encode me too"]
      = ([[fooBarDoc "encode me", fooBarDoc "encode me too"]], .ack) :=
  processField_badProc_unchanged _ _ _ (by decide)

/-- C10: For every configuration, inner chain and input message, the
process-field processor returns exactly one resulting message, and it has
the same number of parts as the input message. -/
theorem processField_partCount_invariant (cfg : ProcessFieldConfig)
    (chain : Message → List Message) (msg : Message) :
    ∃ out, (processField cfg chain msg).1 = [out] ∧ out.length = msg.length := by
  unfold processField
  split
  · exact ⟨_, rfl,
      foldl_set_length_eq
        (fun acc p => mergePart cfg.path cfg.resultType (acc.getD p.1 "") p.2) _ _⟩
  · exact ⟨msg, rfl, rfl⟩

/-- A `filterMap` that returns `some` of every element is the identity. -/
theorem filterMap_id_of_mem {α : Type} (g : α → Option α) :
    ∀ (l : List α), (∀ a ∈ l, g a = some a) → l.filterMap g = l := by
  intro l
  induction l with
  | nil => intro _; rfl
  | cons a l ih =>
    intro h
    rw [List.filterMap_cons, h a (List.mem_cons_self a l),
      ih (fun b hb => h b (List.mem_cons_of_mem a hb))]

/-- An empty part selection resolves to every index. -/
theorem resolveParts_nil (len : Nat) : resolveParts [] len = List.range len := by
  simp [resolveParts]

/-- The explicit all-indices selection resolves to every index. -/
theorem resolveParts_range (len : Nat) :
    resolveParts ((List.range len).map (fun n : Nat => (n : Int))) len = List.range len := by
  unfold resolveParts
  split
  · rfl
  · rw [List.filterMap_map]
    apply filterMap_id_of_mem
    intro n hn
    have hlt : n < len := List.mem_range.mp hn
    have hj : normIdx (n : Int) len = (n : Int) := by
      unfold normIdx
      rw [if_neg (by omega)]
    simp only [Function.comp, hj]
    rw [if_pos ⟨by omega, by omega⟩]
    simp

/-- C6: Configuring an empty part-index selection means every part of the
input message is selected: process-field behaves exactly as with the
explicit all-indices selection, for every path, result type, inner chain
and input message. -/
theorem processField_emptyParts_allParts (path : String) (rt : ResultType)
    (chain : Message → List Message) (msg : Message) :
    processField ⟨[], path, rt⟩ chain msg
      = processField ⟨(List.range msg.length).map (fun n : Nat => (n : Int)), path, rt⟩ chain msg := by
  unfold processField syntheticMessage
  rw [resolveParts_nil, resolveParts_range]

/-- C3 counterexample: `Run` does not budget half of `system_close_timeout`
for draining the data streams — it passes the full timeout to
`dataStream.Stop` — and for `system_close_timeout = 0.5s` a stalled data
stream makes the watchdog exit the process at `0.5s + 1s = 1.5s`, which
exceeds `2 × 0.5s = 1s`. -/
theorem shutdown_half_budget_refuted :
    ¬ ((runCleanup 500000000 ⟨10000000000, false, 0⟩).drainDeadline = 500000000 / 2
      ∧ (runCleanup 500000000 ⟨10000000000, false, 0⟩).exitAt ≤ 2 * 500000000) := by
  decide

/-- C3 amended: for every configured timeout `T` the cleanup of `Run` passes
the full `T` as the data-stream drain deadline, budgets `T / 2` as the HTTP
server's graceful-close grace period, and arms a watchdog at `T + 1s`;
whatever the components do, the process exits within `T + 1s` of cleanup
start, and when the main path would overrun that watchdog deadline the
process exits non-zero after dumping stack traces. -/
theorem shutdown_budget_and_watchdog_bound (t : Nat) (env : ShutdownEnv) :
    (runCleanup t env).drainDeadline = t
  ∧ (runCleanup t env).httpGrace = t / 2
  ∧ (runCleanup t env).exitAt ≤ t + nanosPerSecond
  ∧ (t + nanosPerSecond < (cleanupMain t env).exitAt →
      (runCleanup t env).exitCode = 1 ∧ (runCleanup t env).dumpedStacks = true) := by
  refine ⟨?_, ?_, ?_, ?_⟩
  · unfold runCleanup cleanupMain
    repeat' split
    all_goals rfl
  · unfold runCleanup cleanupMain
    repeat' split
    all_goals rfl
  · unfold runCleanup
    split
    · assumption
    · exact Nat.le_refl _
  · intro h
    unfold runCleanup
    rw [if_neg (by omega)]
    exact ⟨rfl, rfl⟩

/-- Witness for C3 (amended): with `system_close_timeout = 0.5s` and a data
stream whose stop stalls for 10s, the watchdog path exits non-zero with
stack traces dumped. -/
theorem shutdown_budget_and_watchdog_bound_witness :
    (runCleanup 500000000 ⟨10000000000, false, 0⟩).exitCode = 1
  ∧ (runCleanup 500000000 ⟨10000000000, false, 0⟩).dumpedStacks = true :=
  (shutdown_budget_and_watchdog_bound 500000000 ⟨10000000000, false, 0⟩).2.2.2
    (by decide)

end Benthos
